import Mathlib

/-!
Verification of the RecipeAPI core: the search-and-pagination resolver
(`app/apis/helper.py`, function `manage_get`) and the recipe lifecycle
controller (`app/apis/recipes.py`, classes `Recipes` and `Recipee`).

The embedding models the external collaborators the way the core observes
them: the ORM query handle is the list of matching records in their natural
(insertion) order, the storage session is a `Store` value threaded through
the operations, and Python string lowering is `pyLower` below.
-/

namespace RecipeAPI

/-! ### Python string lowering

Python `str.lower` maps each uppercase code point to its lowercase
counterpart.  The recipe names handled by this API are ASCII, so the
embedding lowers the ASCII range: code points 65..90 shift by 32, all
other characters are unchanged. -/

/-- Lowering on code points: A..Z (65..90) map to a..z (97..122). -/
def lowerNat (n : Nat) : Nat := if 65 ≤ n ∧ n ≤ 90 then n + 32 else n

/-- Lowering on characters, via the code point. -/
def lowerChar (c : Char) : Char := Char.ofNat (lowerNat c.toNat)

/-- Embedding of Python `s.lower()` for the strings this API handles. -/
def pyLower (s : String) : String := ⟨s.data.map lowerChar⟩

/-- Embedding of Python substring containment `needle in hay` on char lists. -/
def subList (needle : List Char) : List Char → Bool
  | [] => needle == []
  | c :: t => needle.isPrefixOf (c :: t) || subList needle t

/-- Embedding of Python `needle in hay` for strings. -/
def strContains (needle hay : String) : Bool := subList needle.data hay.data

/-! ### Data model

The `Recipe` model class lives in `app/models/recipe.py`, which is not
among the sources; its shape is modelled from the spec (§3): `recipe_id`
assigned by storage, `recipe_name`, the description stored in the
`ingredients` column (the spec calls description "a.k.a. ingredients",
and `Recipee.put` reads and writes `the_recipe.ingredients`),
`category_id` and `created_by` fixed at creation. -/

/-- Modelled from the spec: the persisted Recipe entity of
`app/models/recipe.py` (file not in the sources); field names follow the
attribute accesses in `app/apis/recipes.py`. -/
structure Recipe where
  recipe_id : Nat
  recipe_name : String
  ingredients : String
  category_id : Nat
  created_by : Nat
deriving Repr, DecidableEq

/-- The storage collaborator: persisted records in insertion order plus
the next identifier the storage assigns on creation. -/
structure Store where
  recipes : List Recipe
  next_id : Nat
deriving Repr, DecidableEq

/-- The store before any operation has run. -/
def emptyStore : Store := ⟨[], 1⟩

/-! ### Request arguments (Q_PARSER)

`manage_get` reads `args.get('q', '')`, `args.get('page', 1)` and
`args.get('per_page', 10)`.  The request parser stores `None` for a
declared-but-absent argument, while a plain missing key makes `.get`
return the literal default; for `q` and `page` both readings collapse
(both are falsy / both paginate from page 1), but for `per_page` they
differ, so `per_page` keeps all three states. -/

/-- The three states of the `per_page` request argument as `manage_get`
can observe them through `args.get('per_page', 10)`. -/
inductive PerPageArg where
  | missing
  | null
  | val (i : Int)
deriving Repr, DecidableEq

/-- Embedding of `args.get('per_page', 10)`: a missing key yields the
literal default 10, a key stored as `None` yields `None`. -/
def rawPerPage : PerPageArg → Option Int
  | .missing => some 10
  | .null => none
  | .val i => some i

/-- The parsed query arguments handed to `manage_get`. -/
structure QueryArgs where
  q : Option String
  page : Option Int
  per_page : PerPageArg
deriving Repr, DecidableEq

/-! ### Resolver (`app/apis/helper.py`, `manage_get`)

The constants `per_page_min` and `per_page_max` are imported from
`app/apis/categories.py`, which is not among the sources; they are kept
as explicit parameters `pmin` and `pmax` of the resolver.  The spec
states the default page size is 10, which is consistent with the code
exactly when the configured minimum is 10. -/

/-- Embedding of the clamping in `manage_get` lines 28-31:
`if per_page is None or per_page < per_page_min: per_page = per_page_min`
then `if per_page > per_page_max: per_page = per_page_max`. -/
def clamp_per_page (pmin pmax : Int) (pp : Option Int) : Int :=
  let p1 := match pp with
    | none => pmin
    | some v => if v < pmin then pmin else v
  if p1 > pmax then pmax else p1

/-- The page size `manage_get` actually paginates with. -/
def effective_per_page (pmin pmax : Int) (a : PerPageArg) : Int :=
  clamp_per_page pmin pmax (rawPerPage a)

/-- Result shapes of `manage_get`: a single serialized record
(`jsonify(the_recipe.data)`), a serialized list of records for a page
(`jsonify(all_recipes)`), or the informational message dictionary. -/
inductive GetResult where
  | single (r : Recipe)
  | page (rs : List Recipe)
  | message (m : String)
deriving Repr, DecidableEq

/-- Embedding of `manage_get` from `app/apis/helper.py`.  The BaseQuery
handle is the list of its records in natural order (`the_recipes.all()`);
its Python truthiness is non-emptiness (an absent / `None` handle is the
empty list here, both take the message branch).  The external `paginate`
collaborator with `error_out=False` is drop/take with page numbering from
1 and out-of-range pages yielding an empty page (spec §4.2, §6). -/
def manage_get (pmin pmax : Int) (the_recipes : List Recipe)
    (args : QueryArgs) : GetResult :=
  if the_recipes.isEmpty then
    GetResult.message "There are no recipes"
  else
    let page : Int := match args.page with
      | none => 1
      | some p => if p < 1 then 1 else p
    let per_page := effective_per_page pmin pmax args.per_page
    let qd := match args.q with
      | none => ""
      | some v => v
    let pag := GetResult.page
      ((the_recipes.drop ((page - 1).toNat * per_page.toNat)).take
        per_page.toNat)
    if qd ≠ "" then
      match the_recipes.find?
          (fun a => strContains (pyLower qd) (pyLower a.recipe_name)) with
      | some a => GetResult.single a
      | none => pag
    else pag

/-! ### Validator -/

/-- Modelled from the spec: `name_validator` from
`app/validation_helper.py` is not among the sources; per spec §4.1 it is
true iff the raw string consists solely of alphabetic characters and
spaces and contains at least one character. -/
def name_validator (name : String) : Bool :=
  name ≠ "" && name.data.all (fun c => c.isAlpha || c == ' ')

/-! ### Lifecycle controller (`app/apis/recipes.py`) -/

/-- Predicate for `Recipe.query.filter_by(created_by=..., category_id=...)`. -/
def sameScope (user_id category_id : Nat) (r : Recipe) : Bool :=
  r.created_by == user_id && r.category_id == category_id

/-- Predicate for
`Recipe.query.filter_by(created_by=..., category_id=..., recipe_id=...)`. -/
def keyMatch (user_id category_id recipe_id : Nat) (r : Recipe) : Bool :=
  r.created_by == user_id && r.category_id == category_id &&
    r.recipe_id == recipe_id

/-- Replace the first record satisfying `p` (the object `first()` returns
and `put` mutates in place); the rest of the list is untouched. -/
def replaceFirst (p : Recipe → Bool) (f : Recipe → Recipe) :
    List Recipe → List Recipe
  | [] => []
  | r :: rs => if p r then f r :: rs else r :: replaceFirst p f rs

/-- Remove the first record satisfying `p` (the object `first()` returns
and `delete` removes); the rest of the list is untouched. -/
def removeFirst (p : Recipe → Bool) : List Recipe → List Recipe
  | [] => []
  | r :: rs => if p r then rs else r :: removeFirst p rs

/-- Outcomes of `Recipes.post`: created with the new identifier (201),
the duplicate message (plain 200 result), or the invalid-name message
carrying the offending raw name (400). -/
inductive PostResult where
  | created (recipe_id : Nat)
  | alreadyExists
  | invalidName (recipe_name : String)
deriving Repr, DecidableEq

/-- HTTP status of each `Recipes.post` outcome; a bare dictionary return
carries the default status 200. -/
def postStatus : PostResult → Nat
  | .created _ => 201
  | .alreadyExists => 200
  | .invalidName _ => 400

/-- Message text of each `Recipes.post` outcome. -/
def postMessage : PostResult → String
  | .created _ => "Recipe has been created"
  | .alreadyExists => "Recipe already exists"
  | .invalidName n =>
      n ++ " is not a valid name. Recipe names can only comprise of " ++
        "alphabetical characters and can be more than one word"

namespace Recipes

/-- Embedding of `Recipes.post` (`app/apis/recipes.py` lines 89-127):
validate the raw name, lower name and description, pre-check uniqueness
by exact match on the lowered name within (created_by, category_id),
then either report the duplicate without touching the store or append
the new record with the storage-assigned identifier. -/
def post (s : Store) (user_id category_id : Nat)
    (recipe_name description : String) : Store × PostResult :=
  if name_validator recipe_name then
    let rn := pyLower recipe_name
    let d := pyLower description
    if (s.recipes.find? (fun r =>
        r.created_by == user_id && r.category_id == category_id &&
          r.recipe_name == rn)).isSome then
      (s, PostResult.alreadyExists)
    else
      let a_recipe : Recipe := ⟨s.next_id, rn, d, category_id, user_id⟩
      (⟨s.recipes ++ [a_recipe], s.next_id + 1⟩,
        PostResult.created s.next_id)
  else (s, PostResult.invalidName recipe_name)

end Recipes

/-- Outcomes of the list-in-category `Recipes.get`: the category-level
not-found message (404) or the delegated resolver result. -/
inductive ListResult where
  | notFoundCategory (category_id : Nat)
  | resolved (g : GetResult)
deriving Repr, DecidableEq

/-- HTTP status of a `Recipes.get` outcome: the category-level not-found
is returned with 404, a delegated resolver result with the default 200. -/
def listStatus : ListResult → Nat
  | .notFoundCategory _ => 404
  | .resolved _ => 200

/-- Message of the category-level not-found outcome,
`f'No recipes in category {category_id}'`. -/
def categoryNotFoundMessage (category_id : Nat) : String :=
  "No recipes in category " ++ toString category_id

namespace Recipes

/-- Embedding of `Recipes.get` (`app/apis/recipes.py` lines 67-83): scope
to (created_by, category_id); if the scoped collection is empty return
the category-level not-found, otherwise delegate.  The delegate
`manage_get_recipes` lives in `app/get_helper.py`, which is not among
the sources; per spec §4.3 it is the Resolver, embedded as `manage_get`. -/
def get (pmin pmax : Int) (s : Store) (user_id category_id : Nat)
    (args : QueryArgs) : ListResult :=
  let the_recipes := s.recipes.filter (sameScope user_id category_id)
  if the_recipes.isEmpty then
    ListResult.notFoundCategory category_id
  else
    ListResult.resolved (manage_get pmin pmax the_recipes args)

end Recipes

/-- Outcomes of `Recipee.put`: not-found (404), success (200), or the
invalid-name message (bare dictionary, default status 200). -/
inductive PutResult where
  | notFound (recipe_id : Nat)
  | success
  | invalidName
deriving Repr, DecidableEq

/-- The recipe_name fallback of `Recipee.put` lines 174-178 as a named
function (the same branching is inlined in `put` below): a falsy
(absent or empty-string) argument falls back to the current
recipe_name of the found record. -/
def fallbackName (rec : Recipe) : Option String → String
  | none => rec.recipe_name
  | some v => if v = "" then rec.recipe_name else v

/-- The description fallback of `Recipee.put` lines 175-180 as a named
function (the same branching is inlined in `put` below): a falsy
(absent or empty-string) argument falls back to the current
ingredients field of the found record. -/
def fallbackDesc (rec : Recipe) : Option String → String
  | none => rec.ingredients
  | some v => if v = "" then rec.ingredients else v

namespace Recipee

/-- Embedding of `Recipee.put` (`app/apis/recipes.py` lines 157-197):
find the record by (created_by, category_id, recipe_id); a falsy
(absent or empty-string) `recipe_name` argument falls back to the
current `recipe_name`, a falsy `description` falls back to the current
`ingredients`; both are lowered, the resulting name is validated, and on
success the found record is overwritten in place.  The parsed arguments
are `Option String` with `none` for an argument stored as `None`; the
parser default `''` for `description` behaves like `none` because both
are falsy. -/
def put (s : Store) (user_id category_id recipe_id : Nat)
    (recipe_name description : Option String) : Store × PutResult :=
  match s.recipes.find? (keyMatch user_id category_id recipe_id) with
  | none => (s, PutResult.notFound recipe_id)
  | some the_recipe =>
    let rn0 := match recipe_name with
      | none => the_recipe.recipe_name
      | some v => if v = "" then the_recipe.recipe_name else v
    let d0 := match description with
      | none => the_recipe.ingredients
      | some v => if v = "" then the_recipe.ingredients else v
    let rn := pyLower rn0
    let d := pyLower d0
    if name_validator rn then
      (⟨replaceFirst (keyMatch user_id category_id recipe_id)
          (fun r => { r with recipe_name := rn, ingredients := d })
          s.recipes, s.next_id⟩,
        PutResult.success)
    else (s, PutResult.invalidName)

end Recipee

/-- Outcomes of `Recipee.delete`: the absent-record message (bare
dictionary, default status 200) or the deletion message. -/
inductive DeleteResult where
  | notFound (recipe_id : Nat)
  | deleted
deriving Repr, DecidableEq

namespace Recipee

/-- Embedding of `Recipee.delete` (`app/apis/recipes.py` lines 201-218):
find the record by (created_by, category_id, recipe_id); report absence
with a message, otherwise remove the record permanently. -/
def delete (s : Store) (user_id category_id recipe_id : Nat) :
    Store × DeleteResult :=
  match s.recipes.find? (keyMatch user_id category_id recipe_id) with
  | none => (s, DeleteResult.notFound recipe_id)
  | some _ =>
      (⟨removeFirst (keyMatch user_id category_id recipe_id) s.recipes,
        s.next_id⟩, DeleteResult.deleted)

end Recipee

/-! ### Lifecycle sequences and the uniqueness invariant -/

/-- A lifecycle controller operation (create, update or delete). -/
inductive Op where
  | create (user_id category_id : Nat) (recipe_name description : String)
  | update (user_id category_id recipe_id : Nat)
      (recipe_name description : Option String)
  | remove (user_id category_id recipe_id : Nat)
deriving Repr, DecidableEq

/-- Whether an operation is an update. -/
def Op.isUpdate : Op → Bool
  | .update _ _ _ _ _ => true
  | _ => false

/-- The store produced by one operation (the response is discarded). -/
def applyOp (s : Store) : Op → Store
  | .create u c n d => (Recipes.post s u c n d).1
  | .update u c i n d => (Recipee.put s u c i n d).1
  | .remove u c i => (Recipee.delete s u c i).1

/-- The store after a sequence of operations starting from the empty
store. -/
def runOps (ops : List Op) : Store := ops.foldl applyOp emptyStore

/-- Two records collide when they share (created_by, category_id) and
their names are equal case-insensitively. -/
def nameClash (r1 r2 : Recipe) : Bool :=
  r1.created_by == r2.created_by && r1.category_id == r2.category_id &&
    pyLower r1.recipe_name == pyLower r2.recipe_name

/-- No two distinct records in the list collide. -/
def dupFree : List Recipe → Bool
  | [] => true
  | r :: rs => rs.all (fun r2 => !nameClash r r2) && dupFree rs

/-- Every stored name is already in lowered form (every write path
lowers before storing). -/
def lowerNames (l : List Recipe) : Bool :=
  l.all (fun r => r.recipe_name == pyLower r.recipe_name)

/-- A store every lifecycle write path can produce: all names lowered and
no case-insensitive duplicate inside an (owner, category) scope. -/
def GoodStore (s : Store) : Prop :=
  lowerNames s.recipes = true ∧ dupFree s.recipes = true

/-! ### Helper lemmas about lowering -/

theorem toNat_ofNat_valid {n : Nat} (h : n.isValidChar) :
    (Char.ofNat n).toNat = n := by
  simp only [Char.ofNat, dif_pos h]
  simp [Char.ofNatAux, Char.toNat, UInt32.toNat]

theorem char_toNat_valid (c : Char) : c.toNat.isValidChar := c.valid

theorem valid_lowerNat {n : Nat} (h : n.isValidChar) :
    (lowerNat n).isValidChar := by
  unfold lowerNat
  split
  · exact Or.inl (by omega)
  · exact h

theorem lowerNat_idem (n : Nat) : lowerNat (lowerNat n) = lowerNat n := by
  unfold lowerNat
  split
  · rw [if_neg (by omega)]
  · rfl

theorem lowerChar_idem (c : Char) : lowerChar (lowerChar c) = lowerChar c := by
  unfold lowerChar
  rw [toNat_ofNat_valid (valid_lowerNat (char_toNat_valid c)), lowerNat_idem]

theorem pyLower_idem (s : String) : pyLower (pyLower s) = pyLower s := by
  unfold pyLower
  simp only [List.map_map]
  congr 1
  exact List.map_congr_left fun c _ => lowerChar_idem c

/-! ### Helper lemmas about the uniqueness invariant -/

theorem dupFree_append_single {l : List Recipe} {r : Recipe}
    (hl : dupFree l = true) (hr : ∀ x ∈ l, nameClash x r = false) :
    dupFree (l ++ [r]) = true := by
  induction l with
  | nil => simp [dupFree]
  | cons a t ih =>
    simp only [dupFree, Bool.and_eq_true, List.all_eq_true] at hl
    have ht : dupFree (t ++ [r]) = true :=
      ih hl.2 (fun x hx => hr x (List.mem_cons_of_mem a hx))
    show dupFree (a :: (t ++ [r])) = true
    simp only [dupFree, Bool.and_eq_true, List.all_eq_true]
    refine ⟨fun x hx => ?_, ht⟩
    rcases List.mem_append.mp hx with hx | hx
    · exact hl.1 x hx
    · rw [List.mem_singleton.mp hx]
      simp [hr a (List.mem_cons_self a t)]

theorem mem_removeFirst {p : Recipe → Bool} {l : List Recipe} {x : Recipe}
    (h : x ∈ removeFirst p l) : x ∈ l := by
  induction l with
  | nil => simp [removeFirst] at h
  | cons a t ih =>
    simp only [removeFirst] at h
    split at h
    · exact List.mem_cons_of_mem a h
    · rcases List.mem_cons.mp h with h1 | h2
      · exact h1 ▸ List.mem_cons_self a t
      · exact List.mem_cons_of_mem a (ih h2)

theorem all_removeFirst {p q : Recipe → Bool} {l : List Recipe}
    (h : l.all q = true) : (removeFirst p l).all q = true := by
  rw [List.all_eq_true] at h ⊢
  exact fun x hx => h x (mem_removeFirst hx)

theorem dupFree_removeFirst {p : Recipe → Bool} {l : List Recipe}
    (h : dupFree l = true) : dupFree (removeFirst p l) = true := by
  induction l with
  | nil => simpa [removeFirst] using h
  | cons a t ih =>
    simp only [dupFree, Bool.and_eq_true] at h
    simp only [removeFirst]
    split
    · exact h.2
    · simp only [dupFree, Bool.and_eq_true]
      exact ⟨all_removeFirst h.1, ih h.2⟩

theorem goodStore_empty : GoodStore emptyStore := ⟨rfl, rfl⟩

theorem post_preserves_good {s : Store} (u c : Nat) (n d : String)
    (h : GoodStore s) : GoodStore (Recipes.post s u c n d).1 := by
  obtain ⟨hlow, hdup⟩ := h
  rcases hv : name_validator n with _ | _
  · simpa [Recipes.post, hv] using And.intro hlow hdup
  · rcases hf : s.recipes.find? (fun r =>
        r.created_by == u && r.category_id == c &&
          r.recipe_name == pyLower n) with _ | r
    · have hnotin := List.find?_eq_none.mp hf
      simp only [Recipes.post, hv, hf, if_true, Option.isSome_none,
        Bool.false_eq_true, if_false]
      constructor
      · simp only [lowerNames, List.all_append, Bool.and_eq_true] at hlow ⊢
        refine ⟨hlow, ?_⟩
        simp [pyLower_idem]
      · refine dupFree_append_single hdup ?_
        intro x hx
        have hxp := hnotin x hx
        have hxlow : x.recipe_name = pyLower x.recipe_name :=
          beq_iff_eq.mp ((List.all_eq_true.mp hlow) x hx)
        simp only [Bool.and_eq_true, beq_iff_eq, not_and] at hxp
        simp only [nameClash, pyLower_idem]
        by_contra hcl
        simp only [Bool.not_eq_false, Bool.and_eq_true, beq_iff_eq] at hcl
        obtain ⟨⟨h1, h2⟩, h3⟩ := hcl
        rw [← hxlow] at h3
        exact hxp ⟨h1, h2⟩ h3
    · simpa [Recipes.post, hv, hf] using And.intro hlow hdup

theorem delete_preserves_good {s : Store} (u c i : Nat)
    (h : GoodStore s) : GoodStore (Recipee.delete s u c i).1 := by
  obtain ⟨hlow, hdup⟩ := h
  rcases hf : s.recipes.find? (keyMatch u c i) with _ | r
  · simpa [Recipee.delete, hf] using And.intro hlow hdup
  · simp only [Recipee.delete, hf]
    exact ⟨all_removeFirst hlow, dupFree_removeFirst hdup⟩

theorem foldl_good : ∀ (ops : List Op),
    ops.all (fun o => !o.isUpdate) = true →
    ∀ s : Store, GoodStore s → GoodStore (ops.foldl applyOp s)
  | [], _, _, hs => hs
  | o :: t, h, s, hs => by
    simp only [List.all_cons, Bool.and_eq_true] at h
    simp only [List.foldl_cons]
    refine foldl_good t h.2 _ ?_
    rcases o with ⟨u, c, n, d⟩ | ⟨u, c, i, n, d⟩ | ⟨u, c, i⟩
    · exact post_preserves_good u c n d hs
    · simp [Op.isUpdate] at h
    · exact delete_preserves_good u c i hs

theorem replaceFirst_congr {p : Recipe → Bool} {f g : Recipe → Recipe}
    {l : List Recipe} {x : Recipe}
    (hfind : l.find? p = some x) (hfg : f x = g x) :
    replaceFirst p f l = replaceFirst p g l := by
  induction l with
  | nil => rfl
  | cons a t ih =>
    rcases hp : p a with _ | _
    · have hfind2 : t.find? p = some x := by
        rwa [List.find?_cons_of_neg _ (by simp [hp])] at hfind
      simp [replaceFirst, hp, ih hfind2]
    · have hx : a = x := by
        have h2 := hfind
        rw [List.find?_cons_of_pos _ hp] at h2
        exact Option.some.inj h2
      subst hx
      simp [replaceFirst, hp, hfg]

theorem put_found_valid (s : Store) (u c i : Nat) (rec : Recipe)
    (name desc : Option String)
    (hfind : s.recipes.find? (keyMatch u c i) = some rec)
    (hvalid : name_validator (pyLower (fallbackName rec name)) = true) :
    Recipee.put s u c i name desc =
      (⟨replaceFirst (keyMatch u c i)
          (fun r => { r with recipe_name := pyLower (fallbackName rec name),
                             ingredients := pyLower (fallbackDesc rec desc) })
          s.recipes, s.next_id⟩, PutResult.success) := by
  rcases name with _ | nv
  · simp only [fallbackName] at hvalid ⊢
    rcases desc with _ | dv
    · simp [Recipee.put, hfind, fallbackDesc, hvalid]
    · by_cases hdv : dv = ""
      · subst hdv
        simp [Recipee.put, hfind, fallbackDesc, hvalid]
      · simp [Recipee.put, hfind, fallbackDesc, hdv, hvalid]
  · by_cases hnv : nv = ""
    · subst hnv
      simp only [fallbackName, if_pos] at hvalid ⊢
      rcases desc with _ | dv
      · simp [Recipee.put, hfind, fallbackDesc, hvalid]
      · by_cases hdv : dv = ""
        · subst hdv
          simp [Recipee.put, hfind, fallbackDesc, hvalid]
        · simp [Recipee.put, hfind, fallbackDesc, hdv, hvalid]
    · simp only [fallbackName, if_neg hnv] at hvalid ⊢
      rcases desc with _ | dv
      · simp [Recipee.put, hfind, fallbackDesc, hnv, hvalid]
      · by_cases hdv : dv = ""
        · subst hdv
          simp [Recipee.put, hfind, fallbackDesc, hnv, hvalid]
        · simp [Recipee.put, hfind, fallbackDesc, hnv, hdv, hvalid]

theorem map_key_replaceFirst (p : Recipe → Bool) (f : Recipe → Recipe)
    (hf : ∀ r, (f r).recipe_id = r.recipe_id ∧
      (f r).category_id = r.category_id ∧ (f r).created_by = r.created_by) :
    ∀ l : List Recipe,
      (replaceFirst p f l).map
          (fun r => (r.recipe_id, r.category_id, r.created_by)) =
        l.map (fun r => (r.recipe_id, r.category_id, r.created_by))
  | [] => rfl
  | a :: t => by
    simp only [replaceFirst]
    split
    · simp [(hf a).1, (hf a).2.1, (hf a).2.2]
    · simp [map_key_replaceFirst p f hf t]

/-! ### Claim theorems -/

/-- C1, counterexample.  The claimed invariant — no two persisted recipes
with the same (created_by, category_id) share a case-insensitive name,
preserved by create, update and delete from an empty store — fails on
the code: `Recipee.put` performs no uniqueness pre-check, so after
creating "Pasta" and "Soup" in the same (owner, category), updating the
second record to the name "Pasta" leaves the store with two colliding
records. -/
theorem uniqueness_claim_counterexample :
    dupFree (runOps [Op.create 1 1 "Pasta" "a sauce",
      Op.create 1 1 "Soup" "a broth",
      Op.update 1 1 2 (some "Pasta") none]).recipes = false := by
  decide

/-- C1, amended.  Case-insensitive name uniqueness within every
(created_by, category_id) scope holds after any sequence of create and
delete operations starting from the empty store; only update can break
it. -/
theorem uniqueness_preserved_by_create_delete (ops : List Op)
    (h : ops.all (fun o => !o.isUpdate) = true) :
    dupFree (runOps ops).recipes = true :=
  (foldl_good ops h emptyStore goodStore_empty).2

theorem uniqueness_preserved_by_create_delete_witness :
    ([Op.create 1 1 "Pasta" "a", Op.remove 1 1 1] : List Op).all
        (fun o => !o.isUpdate) = true ∧
    dupFree (runOps [Op.create 1 1 "Pasta" "a",
      Op.remove 1 1 1]).recipes = true :=
  ⟨by decide, uniqueness_preserved_by_create_delete _ (by decide)⟩

/-- C2.  On a non-empty collection with a non-empty search string, when
some record name contains the query case-insensitively, `manage_get`
returns the first such record in the natural order of the collection as
a single serialized object, not a paginated list; only that one record
is returned no matter how many match. -/
theorem resolver_first_match_single (pmin pmax : Int) (rs : List Recipe)
    (q : String) (page : Option Int) (pp : PerPageArg) (r : Recipe)
    (hne : rs ≠ []) (hq : q ≠ "")
    (hfind : rs.find? (fun a =>
      strContains (pyLower q) (pyLower a.recipe_name)) = some r) :
    manage_get pmin pmax rs ⟨some q, page, pp⟩ = GetResult.single r := by
  simp [manage_get, hne, hq, hfind]

theorem resolver_first_match_single_witness :
    ([⟨1, "soup", "a broth", 1, 1⟩,
      ⟨2, "pasta bake", "a sauce", 1, 1⟩] : List Recipe) ≠ [] ∧
    ("Bake" : String) ≠ "" ∧
    ([⟨1, "soup", "a broth", 1, 1⟩,
      ⟨2, "pasta bake", "a sauce", 1, 1⟩] : List Recipe).find?
        (fun a => strContains (pyLower "Bake") (pyLower a.recipe_name)) =
      some ⟨2, "pasta bake", "a sauce", 1, 1⟩ ∧
    manage_get 5 20
        [⟨1, "soup", "a broth", 1, 1⟩, ⟨2, "pasta bake", "a sauce", 1, 1⟩]
        ⟨some "Bake", none, PerPageArg.null⟩ =
      GetResult.single ⟨2, "pasta bake", "a sauce", 1, 1⟩ :=
  ⟨by decide, by decide, by decide,
    resolver_first_match_single 5 20 _ _ _ _ _ (by decide) (by decide)
      (by decide)⟩

/-- C4.  The effective page size of the resolver: a `per_page` parsed as
`None` or below the configured minimum clamps to the minimum, above the
configured maximum clamps to the maximum, and is otherwise used as is; a
`per_page` key that is entirely missing takes the literal default 10 and
is then clamped, so an absent `per_page` yields the spec default 10
whenever the configured minimum is 10 (and for a missing key whenever 10
is within the configured bounds). -/
theorem resolver_per_page_clamping (pmin pmax : Int) (h : pmin ≤ pmax) :
    effective_per_page pmin pmax PerPageArg.null = pmin ∧
    (∀ i : Int, i < pmin →
      effective_per_page pmin pmax (PerPageArg.val i) = pmin) ∧
    (∀ i : Int, pmax < i →
      effective_per_page pmin pmax (PerPageArg.val i) = pmax) ∧
    (∀ i : Int, pmin ≤ i → i ≤ pmax →
      effective_per_page pmin pmax (PerPageArg.val i) = i) ∧
    (pmin ≤ 10 → 10 ≤ pmax →
      effective_per_page pmin pmax PerPageArg.missing = 10) ∧
    (pmin = 10 →
      effective_per_page pmin pmax PerPageArg.missing = 10 ∧
      effective_per_page pmin pmax PerPageArg.null = 10) := by
  refine ⟨?_, fun i hi => ?_, fun i hi => ?_, fun i h1 h2 => ?_,
    fun h1 h2 => ?_, fun he => ⟨?_, ?_⟩⟩ <;>
    simp only [effective_per_page, clamp_per_page, rawPerPage] <;>
    (repeat' split) <;> omega

theorem resolver_per_page_clamping_witness :
    (5 : Int) ≤ 20 ∧
    (effective_per_page 5 20 PerPageArg.null = 5 ∧
    (∀ i : Int, i < 5 → effective_per_page 5 20 (PerPageArg.val i) = 5) ∧
    (∀ i : Int, 20 < i →
      effective_per_page 5 20 (PerPageArg.val i) = 20) ∧
    (∀ i : Int, 5 ≤ i → i ≤ 20 →
      effective_per_page 5 20 (PerPageArg.val i) = i) ∧
    ((5 : Int) ≤ 10 → (10 : Int) ≤ 20 →
      effective_per_page 5 20 PerPageArg.missing = 10) ∧
    ((5 : Int) = 10 →
      effective_per_page 5 20 PerPageArg.missing = 10 ∧
      effective_per_page 5 20 PerPageArg.null = 10)) :=
  ⟨by norm_num, resolver_per_page_clamping 5 20 (by norm_num)⟩

/-- C5.  Creating a recipe whose lowered name already exists (the store
keeps names lowered, so exact match on the lowered name is the
case-insensitive check) in the same (created_by, category_id) scope
returns the already-exists message as a plain 200 result, persists
nothing, assigns no identifier, and leaves the store unchanged. -/
theorem create_duplicate_no_mutation (s : Store) (u c : Nat)
    (n d : String)
    (hlow : lowerNames s.recipes = true)
    (hv : name_validator n = true)
    (hex : ∃ r ∈ s.recipes, r.created_by = u ∧ r.category_id = c ∧
      pyLower r.recipe_name = pyLower n) :
    Recipes.post s u c n d = (s, PostResult.alreadyExists) ∧
    postStatus PostResult.alreadyExists = 200 ∧
    postMessage PostResult.alreadyExists = "Recipe already exists" := by
  obtain ⟨r, hr, h1, h2, h3⟩ := hex
  have hrn : r.recipe_name = pyLower n := by
    have hx := beq_iff_eq.mp ((List.all_eq_true.mp hlow) r hr)
    rw [hx, h3]
  have hsome : (s.recipes.find? (fun x =>
      x.created_by == u && x.category_id == c &&
        x.recipe_name == pyLower n)).isSome = true :=
    List.find?_isSome.mpr ⟨r, hr, by simp [h1, h2, hrn]⟩
  refine ⟨?_, rfl, rfl⟩
  simp [Recipes.post, hv, hsome]

theorem create_duplicate_no_mutation_witness :
    lowerNames ([⟨1, "pasta bake", "a sauce", 1, 1⟩] : List Recipe) =
      true ∧
    name_validator "Pasta Bake" = true ∧
    Recipes.post ⟨[⟨1, "pasta bake", "a sauce", 1, 1⟩], 2⟩ 1 1
        "Pasta Bake" "x" =
      (⟨[⟨1, "pasta bake", "a sauce", 1, 1⟩], 2⟩,
        PostResult.alreadyExists) :=
  ⟨by decide, by decide,
    (create_duplicate_no_mutation ⟨[⟨1, "pasta bake", "a sauce", 1, 1⟩], 2⟩
      1 1 "Pasta Bake" "x" (by decide) (by decide)
      ⟨⟨1, "pasta bake", "a sauce", 1, 1⟩, by decide, by decide, by decide,
        by decide⟩).1⟩

/-- C6.  The name validator accepts a string exactly when it is
non-empty and every character is alphabetic or a space; it is a pure
total function of its argument. -/
theorem name_validator_characterization (s : String) :
    name_validator s = true ↔
      0 < s.length ∧ ∀ c ∈ s.data, c.isAlpha = true ∨ c = ' ' := by
  unfold name_validator
  rw [Bool.and_eq_true, decide_eq_true_eq, List.all_eq_true]
  constructor
  · rintro ⟨h1, h2⟩
    refine ⟨?_, fun c hc => ?_⟩
    · have hne : s.data ≠ [] := fun hc => h1 (String.ext (by rw [hc]))
      show 0 < s.data.length
      exact List.length_pos.mpr hne
    · have hcc := h2 c hc
      rcases Bool.or_eq_true _ _ |>.mp hcc with h | h
      · exact Or.inl h
      · exact Or.inr (beq_iff_eq.mp h)
  · rintro ⟨h1, h2⟩
    refine ⟨?_, fun c hc => ?_⟩
    · intro hc
      rw [hc] at h1
      simp at h1
    · rcases h2 c hc with h | h
      · simp [h]
      · simp [h]

/-- C7.  Every successful update — any combination of supplied, omitted
or empty-string fields — changes only the recipe_name and ingredients
fields of the targeted record: the effective name and description are
the fallback values (an omitted or empty name falls back to the current
recipe_name, an omitted or empty description to the current ingredients
field), both lowered before storage; the (recipe_id, category_id,
created_by) triple of every record in the store is untouched; and in
particular an update not supplying a name leaves the recipe_name of the
(lowered-name) record unchanged.  An update succeeds exactly when the
lowered effective name validates, so the validity hypothesis covers
precisely the successful updates. -/
theorem update_frame_fields (s : Store) (u c i : Nat) (rec : Recipe)
    (name desc : Option String)
    (hfind : s.recipes.find? (keyMatch u c i) = some rec)
    (hvalid : name_validator (pyLower (fallbackName rec name)) = true) :
    Recipee.put s u c i name desc =
      (⟨replaceFirst (keyMatch u c i)
          (fun r => { r with recipe_name := pyLower (fallbackName rec name),
                             ingredients := pyLower (fallbackDesc rec desc) })
          s.recipes, s.next_id⟩, PutResult.success) ∧
    (Recipee.put s u c i name desc).1.recipes.map
        (fun r => (r.recipe_id, r.category_id, r.created_by)) =
      s.recipes.map (fun r => (r.recipe_id, r.category_id, r.created_by)) ∧
    ((name = none ∨ name = some "") →
      rec.recipe_name = pyLower rec.recipe_name →
      (Recipee.put s u c i name desc).1.recipes =
        replaceFirst (keyMatch u c i)
          (fun r => { r with ingredients := pyLower (fallbackDesc rec desc) })
          s.recipes) := by
  have hput := put_found_valid s u c i rec name desc hfind hvalid
  refine ⟨hput, ?_, ?_⟩
  · rw [hput]
    dsimp only
    exact map_key_replaceFirst (keyMatch u c i)
      (fun r => { r with recipe_name := pyLower (fallbackName rec name),
                         ingredients := pyLower (fallbackDesc rec desc) })
      (fun r => ⟨rfl, rfl, rfl⟩) s.recipes
  · intro hname hlow
    rw [hput]
    dsimp only
    refine replaceFirst_congr hfind ?_
    have hfb : fallbackName rec name = rec.recipe_name := by
      rcases hname with h | h <;> subst h <;> simp [fallbackName]
    rw [hfb, ← hlow]

theorem update_frame_fields_witness :
    (([⟨1, "pasta", "old sauce", 1, 1⟩] : List Recipe).find?
        (keyMatch 1 1 1) = some ⟨1, "pasta", "old sauce", 1, 1⟩) ∧
    name_validator (pyLower (fallbackName ⟨1, "pasta", "old sauce", 1, 1⟩
      (some "Tomato Soup"))) = true ∧
    Recipee.put ⟨[⟨1, "pasta", "old sauce", 1, 1⟩], 2⟩ 1 1 1
        (some "Tomato Soup") (some "New Desc") =
      (⟨replaceFirst (keyMatch 1 1 1)
          (fun r => { r with
            recipe_name := pyLower (fallbackName
              ⟨1, "pasta", "old sauce", 1, 1⟩ (some "Tomato Soup")),
            ingredients := pyLower (fallbackDesc
              ⟨1, "pasta", "old sauce", 1, 1⟩ (some "New Desc")) })
          [⟨1, "pasta", "old sauce", 1, 1⟩], 2⟩, PutResult.success) :=
  ⟨by decide, by decide,
    (update_frame_fields ⟨[⟨1, "pasta", "old sauce", 1, 1⟩], 2⟩ 1 1 1
      ⟨1, "pasta", "old sauce", 1, 1⟩ (some "Tomato Soup")
      (some "New Desc") (by decide) (by decide)).1⟩

/-- C8.  Creating a recipe whose raw name fails the naming policy
returns the descriptive invalid-name message with status 400 and leaves
the store untouched. -/
theorem create_invalid_name_no_mutation (s : Store) (u c : Nat)
    (n d : String) (h : name_validator n = false) :
    Recipes.post s u c n d = (s, PostResult.invalidName n) ∧
    postStatus (PostResult.invalidName n) = 400 ∧
    postMessage (PostResult.invalidName n) =
      n ++ " is not a valid name. Recipe names can only comprise of " ++
        "alphabetical characters and can be more than one word" := by
  refine ⟨?_, rfl, rfl⟩
  simp [Recipes.post, h]

theorem create_invalid_name_no_mutation_witness :
    name_validator "Pasta123" = false ∧
    Recipes.post ⟨[], 1⟩ 1 1 "Pasta123" "x" =
      (⟨[], 1⟩, PostResult.invalidName "Pasta123") :=
  ⟨by decide,
    (create_invalid_name_no_mutation ⟨[], 1⟩ 1 1 "Pasta123" "x"
      (by decide)).1⟩

/-- C9.  A list-in-category request whose (owner, category)-scoped
collection is empty yields the category-level not-found outcome with
status 404; it is never a delegated resolver result, and its message
text differs from the resolver no-recipes message. -/
theorem list_in_category_empty_not_found (pmin pmax : Int) (s : Store)
    (u c : Nat) (args : QueryArgs)
    (h : s.recipes.filter (sameScope u c) = []) :
    Recipes.get pmin pmax s u c args = ListResult.notFoundCategory c ∧
    listStatus (ListResult.notFoundCategory c) = 404 ∧
    (∀ g : GetResult,
      ListResult.notFoundCategory c ≠ ListResult.resolved g) ∧
    categoryNotFoundMessage c ≠ "There are no recipes" := by
  refine ⟨by simp [Recipes.get, h], rfl, fun g => by simp, ?_⟩
  intro hc
  have hdata : ("No recipes in category ".data ++ (toString c).data) =
      "There are no recipes".data := by
    rw [← String.data_append]
    exact congrArg String.data hc
  have h4 : ("No recipes in category ".data ++ (toString c).data).take 4 =
      ("There are no recipes".data).take 4 := by rw [hdata]
  rw [List.take_append_of_le_length (by decide)] at h4
  exact absurd h4 (by decide)

theorem list_in_category_empty_not_found_witness :
    (Store.recipes ⟨[⟨1, "soup", "a broth", 1, 1⟩], 2⟩).filter
        (sameScope 2 1) = [] ∧
    Recipes.get 5 20 ⟨[⟨1, "soup", "a broth", 1, 1⟩], 2⟩ 2 1
        ⟨none, none, PerPageArg.null⟩ = ListResult.notFoundCategory 1 :=
  ⟨by decide,
    (list_in_category_empty_not_found 5 20
      ⟨[⟨1, "soup", "a broth", 1, 1⟩], 2⟩ 2 1
      ⟨none, none, PerPageArg.null⟩ (by decide)).1⟩

/-- C10.  On an update of an existing recipe, supplying the empty string
for either field behaves exactly like omitting that field: an
empty-string recipe_name is equivalent to an omitted one (the current
name is used, so — the stored name validating after lowering — the
invalid-name outcome cannot occur), and an empty-string description is
equivalent to an omitted one, the stored ingredients being the lowered
current ingredients of the record whenever the update succeeds. -/
theorem update_empty_string_fallback (s : Store) (u c i : Nat)
    (d nm : Option String) (rec : Recipe)
    (hfind : s.recipes.find? (keyMatch u c i) = some rec)
    (hvalid : name_validator (pyLower rec.recipe_name) = true) :
    Recipee.put s u c i (some "") d = Recipee.put s u c i none d ∧
    Recipee.put s u c i nm (some "") = Recipee.put s u c i nm none ∧
    (name_validator (pyLower (fallbackName rec nm)) = true →
      (Recipee.put s u c i nm (some "")).1.recipes =
        replaceFirst (keyMatch u c i)
          (fun r => { r with recipe_name := pyLower (fallbackName rec nm),
                             ingredients := pyLower rec.ingredients })
          s.recipes) ∧
    (Recipee.put s u c i (some "") d).2 ≠ PutResult.invalidName := by
  have heq : Recipee.put s u c i (some "") d =
      Recipee.put s u c i none d := by
    simp [Recipee.put, hfind]
  have heqd : Recipee.put s u c i nm (some "") =
      Recipee.put s u c i nm none := by
    simp [Recipee.put, hfind]
  refine ⟨heq, heqd, ?_, ?_⟩
  · intro hv
    rw [put_found_valid s u c i rec nm (some "") hfind hv]
    dsimp only
    simp [fallbackDesc]
  · rw [heq]
    simp [Recipee.put, hfind, hvalid]

theorem update_empty_string_fallback_witness :
    (([⟨1, "pasta", "old sauce", 1, 1⟩] : List Recipe).find?
        (keyMatch 1 1 1) = some ⟨1, "pasta", "old sauce", 1, 1⟩) ∧
    name_validator (pyLower "pasta") = true ∧
    Recipee.put ⟨[⟨1, "pasta", "old sauce", 1, 1⟩], 2⟩ 1 1 1 (some "")
        (some "x") =
      Recipee.put ⟨[⟨1, "pasta", "old sauce", 1, 1⟩], 2⟩ 1 1 1 none
        (some "x") ∧
    Recipee.put ⟨[⟨1, "pasta", "old sauce", 1, 1⟩], 2⟩ 1 1 1
        (some "Tomato") (some "") =
      Recipee.put ⟨[⟨1, "pasta", "old sauce", 1, 1⟩], 2⟩ 1 1 1
        (some "Tomato") none :=
  ⟨by decide, by decide,
    (update_empty_string_fallback ⟨[⟨1, "pasta", "old sauce", 1, 1⟩], 2⟩
      1 1 1 (some "x") (some "Tomato") ⟨1, "pasta", "old sauce", 1, 1⟩
      (by decide) (by decide)).1,
    (update_empty_string_fallback ⟨[⟨1, "pasta", "old sauce", 1, 1⟩], 2⟩
      1 1 1 (some "x") (some "Tomato") ⟨1, "pasta", "old sauce", 1, 1⟩
      (by decide) (by decide)).2.1⟩

end RecipeAPI
